import Mathlib

/-!
Shallow embedding of the collaborative editor client (src/src/App.jsx) and
proofs about its realtime synchronization, video-call signaling, REST error
handling and join-link parsing.

Modelling conventions:
- React state setters become record updates on explicit state structures.
- The mutable ref isRemote.current (App.jsx line 26) is a Bool field.
- socket.emit calls and outbound REST requests are recorded in log lists so
  that "exactly once" properties are statable.
- Asynchronous handlers are split at their suspension points: the synchronous
  prefix is one function, and each completion path (fulfilled or rejected) is
  another function applied later to the then-current state, which is exactly
  how the single-threaded event loop schedules them.
- JS strings are modelled by String except in the join-link parser, where
  List Char is used so that the split/trim semantics can be reasoned about
  structurally.
-/

namespace OnlineEditor

/-- Events the client emits on the realtime channel (the socket.emit calls of
App.jsx): "join-document" carries a document id, "edit-document" carries
{documentId, content}. -/
inductive SocketEvent where
  | joinDocument (documentId : String)
  | editDocument (documentId : String) (content : String)
  deriving DecidableEq, Repr

/-- State touched by the document-sync part of App.jsx: the selected document
id, the editor buffer (content, line 25), the isRemote suppression ref
(line 26), plus logs of the emitted "edit-document" events and of the PUT
persistence requests issued by handleEditorChange. -/
structure EditorState where
  selectedDoc : Option String
  content : String
  isRemote : Bool
  emitted : List SocketEvent
  putRequests : List (String × String)
  deriving DecidableEq, Repr

/-- First statement of the "document-updated" handler (App.jsx line 83):
isRemote.current = true. -/
def setIsRemoteTrue (st : EditorState) : EditorState :=
  { st with isRemote := true }

/-- Second statement of the "document-updated" handler (App.jsx line 84):
setContent(newContent). -/
def setContentTo (newContent : String) (st : EditorState) : EditorState :=
  { st with content := newContent }

/-- The "document-updated" handler (App.jsx lines 82-85): it first sets the
suppression flag, then replaces the buffer with the remote content. -/
def documentUpdated (newContent : String) (st : EditorState) : EditorState :=
  setContentTo newContent (setIsRemoteTrue st)

/-- handleEditorChange (App.jsx lines 232-252). In source order:
setContent(value); early return when no document is selected (note: without
clearing the flag); when isRemote.current is false, emit "edit-document"
{documentId, content} and issue the persistence PUT; finally
isRemote.current = false. -/
def handleEditorChange (value : String) (st : EditorState) : EditorState :=
  let st1 := { st with content := value }
  match st1.selectedDoc with
  | none => st1
  | some docId =>
    let st2 :=
      if st1.isRemote then st1
      else
        { st1 with
          emitted := st1.emitted ++ [SocketEvent.editDocument docId value]
          putRequests := st1.putRequests ++ [(docId, value)] }
    { st2 with isRemote := false }

/-- A sequence of local-edit handler invocations, applied in order. -/
def runLocalEdits (edits : List String) (st : EditorState) : EditorState :=
  edits.foldl (fun s v => handleEditorChange v s) st

/-- A live peer-to-peer media connection handle (a PeerJS MediaConnection, as
produced by peer.call or received by the "call" event). callId is the
identity of the underlying connection object, remotePeerId the id of the
remote participant. -/
structure CallHandle where
  callId : Nat
  remotePeerId : String
  deriving DecidableEq, Repr

/-- State of the video-call subsystem of App.jsx: inCall (line 37), the Peer
instance and local stream identities (lines 38-39, None while unset), the
peers map peerId to call (line 40, modelled as an association list with the
JS-object property semantics), and the keys of videoRefs.current
(line 41). -/
structure VideoState where
  inCall : Bool
  myPeer : Option Nat
  myStream : Option Nat
  peers : List (String × CallHandle)
  videoRefs : List String
  deriving DecidableEq, Repr

/-- Log of externally visible effects of the video subsystem: outbound
connection attempts (peer.call invocations), destroyed Peer instances,
streams whose tracks were stopped, closed calls, and emitted "join-document"
events. -/
structure VideoLog where
  outboundCalls : List String
  destroyedPeers : List Nat
  stoppedStreams : List Nat
  closedCalls : List Nat
  emittedJoinDoc : List String
  deriving DecidableEq, Repr

/-- Property lookup on the peers object: peers[peerId]. -/
def lookupPeers (m : List (String × CallHandle)) (k : String) : Option CallHandle :=
  match m with
  | [] => none
  | p :: rest => if p.1 = k then some p.2 else lookupPeers rest k

/-- The object-spread update of the source, written as
setPeers(prev => ({ ...prev, [peerId]: call })): on a JS object (whose keys
are unique) the existing key keeps its position and gets the new value, and
an absent key is appended at the end. -/
def upsert : List (String × CallHandle) → String → CallHandle →
    List (String × CallHandle)
  | [], k, v => [(k, v)]
  | p :: rest, k, v => if p.1 = k then (k, v) :: rest else p :: upsert rest k v

/-- The keys of the peers object are pairwise distinct, which a JS object
guarantees by construction. -/
def keysNodup (m : List (String × CallHandle)) : Prop :=
  (m.map Prod.fst).Nodup

instance (m : List (String × CallHandle)) : Decidable (keysNodup m) := by
  unfold keysNodup; infer_instance

/-- The "user-joined-video" handler (App.jsx lines 277-284). Its only guards
are an empty or missing peerId and the own peer id of the closed-over Peer
instance (selfId); otherwise it always performs peer.call(peerId, stream)
(logged in outboundCalls), registers the stream callback and stores the call
under peerId. There is no check of whether peers already holds peerId. -/
def userJoinedVideo (selfId peerId : String) (freshCallId : Nat)
    (v : VideoState) (l : VideoLog) : VideoState × VideoLog :=
  if peerId = "" ∨ peerId = selfId then (v, l)
  else
    ({ v with peers := upsert v.peers peerId ⟨freshCallId, peerId⟩ },
     { l with outboundCalls := l.outboundCalls ++ [peerId] })

/-- The inbound-call handler peer.on("call") (App.jsx lines 269-275): the call
is answered unconditionally and stored under the caller id with the same
object-spread update. -/
def peerIncomingCall (callerId : String) (freshCallId : Nat)
    (v : VideoState) : VideoState :=
  { v with peers := upsert v.peers callerId ⟨freshCallId, callerId⟩ }

deriving instance DecidableEq for Except

/-- JS member access on a possibly-undefined value: reading a property of
undefined raises a TypeError. -/
def jsAccess {α : Type} : Option α → Except String α
  | none => Except.error "TypeError: reading a property of undefined"
  | some a => Except.ok a

/-- The videoRefs part of the "user-left-video" handler (App.jsx lines
287-290): if (videoRefs.current[peerId]) then its srcObject is cleared and the
entry deleted, otherwise videoRefs is untouched. -/
def removeRef (peerId : String) (refs : List String) : List String :=
  if refs.contains peerId then refs.filter (fun k => k ≠ peerId) else refs

/-- The setPeers updater of the "user-left-video" handler (App.jsx lines
291-297), with the JS property access made explicit: if (!prev[peerId])
return prev guards the subsequent prev[peerId].close() access, which would
throw on undefined. Returns the new peers object and the closed-calls log. -/
def setPeersOnUserLeft (peerId : String) (prev : List (String × CallHandle))
    (closed : List Nat) : Except String (List (String × CallHandle) × List Nat) :=
  if (lookupPeers prev peerId).isSome = false then Except.ok (prev, closed)
  else
    match jsAccess (lookupPeers prev peerId) with
    | Except.error e => Except.error e
    | Except.ok call =>
        Except.ok (prev.filter (fun p => p.1 ≠ peerId), closed ++ [call.callId])

/-- The "user-left-video" handler (App.jsx lines 286-298): first the videoRefs
entry is cleared if present, then the setPeers updater runs. -/
def userLeftVideo (peerId : String) (v : VideoState) (l : VideoLog) :
    Except String (VideoState × VideoLog) :=
  let refs := removeRef peerId v.videoRefs
  match setPeersOnUserLeft peerId v.peers l.closedCalls with
  | Except.error e => Except.error e
  | Except.ok (peersNew, closedNew) =>
      Except.ok ({ v with videoRefs := refs, peers := peersNew },
                 { l with closedCalls := closedNew })

/-- Outcome of the navigator.mediaDevices.getUserMedia request. -/
inductive MediaOutcome where
  | granted (streamId : Nat)
  | denied
  deriving DecidableEq, Repr

/-- Synchronous prefix of handleJoinVideoCall (App.jsx lines 255-258) up to
the getUserMedia suspension point: the reentrancy guard
if (inCall or no selected document) return, then setInCall(true). Returns the
state at the suspension point and whether a media request was issued. -/
def handleJoinVideoCallStart (hasDoc : Bool) (v : VideoState) : VideoState × Bool :=
  if v.inCall || !hasDoc then (v, false)
  else ({ v with inCall := true }, true)

/-- Resumption of handleJoinVideoCall after getUserMedia resolves (App.jsx
lines 259-304): on grant, the stream is stored, the Peer instance is created
and stored, and addPeerStream("me", stream, true) registers the self preview
under the key "me" (lines 300, 307-317); on denial the catch block alerts and
resets inCall to false (lines 301-304). -/
def handleJoinVideoCallResume (outcome : MediaOutcome) (peerInstance : Nat)
    (v : VideoState) : VideoState :=
  match outcome with
  | MediaOutcome.granted streamId =>
      { v with
        myStream := some streamId
        myPeer := some peerInstance
        videoRefs := if v.videoRefs.contains "me" then v.videoRefs else v.videoRefs ++ ["me"] }
  | MediaOutcome.denied => { v with inCall := false }

/-- Values captured by the closure of the cleanup effect (App.jsx lines
319-331) at the render in which the effect last ran. The effect list is
[selectedDoc] (line 331, with an eslint-disable on line 330), so the cleanup
closure sees myPeer, myStream and peers as they were when selectedDoc last
changed, not their current values. -/
structure AppView where
  myPeer : Option Nat
  myStream : Option Nat
  peers : List (String × CallHandle)
  deriving DecidableEq, Repr

/-- Coordinator-level state: the selected document id, the live video state,
the pending cleanup closure (see AppView), and the effect log. -/
structure CoordState where
  selectedDoc : Option String
  video : VideoState
  cleanupSnapshot : AppView
  log : VideoLog
  deriving DecidableEq, Repr

/-- The cleanup body (App.jsx lines 320-329) run with the captured snapshot:
if (myPeer) myPeer.destroy(); if (myStream) stop all tracks; close every call
in peers; then videoRefs.current = {} and the live state is reset via
setInCall(false), setPeers({}), setMyPeer(null), setMyStream(null). -/
def runCleanup (snap : AppView) (v : VideoState) (l : VideoLog) :
    VideoState × VideoLog :=
  let l1 := match snap.myPeer with
    | some p => { l with destroyedPeers := l.destroyedPeers ++ [p] }
    | none => l
  let l2 := match snap.myStream with
    | some s => { l1 with stoppedStreams := l1.stoppedStreams ++ [s] }
    | none => l1
  let l3 := { l2 with closedCalls := l2.closedCalls ++ snap.peers.map (fun p => p.2.callId) }
  ({ v with videoRefs := [], inCall := false, peers := [], myPeer := none, myStream := none }, l3)

/-- The React commit for a change of selectedDoc. React first runs the cleanup
functions of the effects whose dependencies changed, in declaration order
(the join effect of lines 78-89 only calls socket.off, then the call-teardown
cleanup of lines 319-331 runs with its captured snapshot), and then runs the
new effect bodies: the join effect emits "join-document" with the new id
(line 80), and the teardown effect re-registers its cleanup, capturing the
values of the current render. The setState calls made inside the cleanup are
processed only on a later render, so the freshly captured snapshot still
holds the pre-cleanup values of myPeer, myStream and peers. -/
def selectDocCommit (d : String) (st : CoordState) : CoordState :=
  let r := runCleanup st.cleanupSnapshot st.video st.log
  let l2 := { r.2 with emittedJoinDoc := r.2.emittedJoinDoc ++ [d] }
  { selectedDoc := some d
    video := r.1
    cleanupSnapshot := ⟨st.video.myPeer, st.video.myStream, st.video.peers⟩
    log := l2 }

/-- Coordinator-level effect of a run of handleJoinVideoCall in which
getUserMedia is granted: the synchronous prefix followed by the granted
resumption. The cleanupSnapshot field is unchanged because the effect of
lines 319-331 does not re-run (its dependency selectedDoc did not change). -/
def joinVideoCallGranted (peerInstance streamId : Nat) (st : CoordState) :
    CoordState :=
  let r := handleJoinVideoCallStart st.selectedDoc.isSome st.video
  if r.2 then
    { st with video := handleJoinVideoCallResume (MediaOutcome.granted streamId) peerInstance r.1 }
  else st

/-- Coordinator-level lifting of the "user-joined-video" handler. -/
def coordUserJoinedVideo (selfId peerId : String) (freshCallId : Nat)
    (st : CoordState) : CoordState :=
  let r := userJoinedVideo selfId peerId freshCallId st.video st.log
  { st with video := r.1, log := r.2 }

/-- Initial coordinator state: no document selected, no call, empty logs. -/
def coordInit : CoordState :=
  { selectedDoc := none
    video := ⟨false, none, none, [], []⟩
    cleanupSnapshot := ⟨none, none, []⟩
    log := ⟨[], [], [], [], []⟩ }

/-- The state reached by: select document A, join the video call successfully
(Peer instance 7, local stream 3), then peer q joins and a call (id 11) is
placed to q. -/
def c5AfterCall : CoordState :=
  coordUserJoinedVideo "self" "q" 11
    (joinVideoCallGranted 7 3 (selectDocCommit "A" coordInit))

/-- The state reached from c5AfterCall by selecting document B. -/
def c5Trace : CoordState := selectDocCommit "B" c5AfterCall

/-- A concrete video state with a PeerLink already registered for p1 and its
video tile present, used to exercise the duplicate-notification path. -/
def c3State : VideoState :=
  ⟨true, some 7, some 3, [("p1", ⟨5, "p1"⟩)], ["me", "p1"]⟩

/-- A log on which one outbound call to p1 has already been placed. -/
def c3Log : VideoLog := ⟨["p1"], [], [], [], []⟩

/-- A concrete in-call video state with only the self preview registered:
peers is empty, videoRefs holds the synthetic key "me" added by
addPeerStream("me", stream, true). -/
def c8State : VideoState := ⟨true, some 7, some 3, [], ["me"]⟩

/-- The empty effect log. -/
def log0 : VideoLog := ⟨[], [], [], [], []⟩

/-- A document as handled by the client: _id, title, content. -/
structure Document where
  _id : String
  title : String
  content : String
  deriving DecidableEq, Repr

/-- State touched by the REST-facing handlers of App.jsx: the auth token and
user (lines 13-17), the documents list, the selected document and the buffer
(lines 23-25), the join-by-link fields (lines 30-34) and the log of emitted
"join-document" events. -/
structure RestState where
  token : String
  user : Option String
  documents : List Document
  selectedDoc : Option Document
  content : Option String
  joinError : String
  joinSuccess : String
  joinLink : String
  emittedJoinDoc : List String
  deriving DecidableEq, Repr

/-- handleLogout (App.jsx lines 117-124): clears the token and user (and the
corresponding localStorage entries), deselects the document and empties the
buffer. -/
def handleLogout (st : RestState) : RestState :=
  { st with token := "", user := none, selectedDoc := none, content := some "" }

/-- Completion of the document-list fetch (App.jsx lines 62-70): a 401
response triggers handleLogout and resolves to [], which the following then
stores; any other status stores the response body (coerced to [] when it is
not an array, which the bodyDocs argument already reflects). -/
def fetchDocumentsCompleted (status : Nat) (bodyDocs : List Document)
    (st : RestState) : RestState :=
  if status = 401 then { handleLogout st with documents := [] }
  else { st with documents := bodyDocs }

/-- Synchronous prefix of handleSelectDoc (App.jsx line 128): the document is
selected immediately, before the content fetch resolves. -/
def handleSelectDocStart (doc : Document) (st : RestState) : RestState :=
  { st with selectedDoc := some doc }

/-- Fulfilled continuation of the handleSelectDoc content fetch (App.jsx
lines 131-135): the response status is never inspected and no session
identity is checked; data.content is stored into the buffer unconditionally.
On a 401 or 404 the JSON body has no content field, which the None argument
models. -/
def handleSelectDocFulfilled (status : Nat) (bodyContent : Option String)
    (st : RestState) : RestState :=
  { st with content := bodyContent }

/-- Rejected continuation of the handleSelectDoc content fetch (App.jsx
lines 136-139): the buffer is cleared. -/
def handleSelectDocRejected (st : RestState) : RestState :=
  { st with content := some "" }

/-- Completion of the handleJoinDocument verification fetch (App.jsx lines
199-224): a non-ok status raises a message that the catch stores in
joinError (404, 401 and a generic case, lines 203-211); a 401 in particular
produces an access message and no logout. On success the document is
selected, the buffer seeded, "join-document" emitted, the link input cleared
and a success message shown. -/
def handleJoinDocumentResponse (docId : String) (status : Nat)
    (body : Document) (st : RestState) : RestState :=
  if 200 ≤ status ∧ status < 300 then
    { st with
      selectedDoc := some body
      content := some body.content
      emittedJoinDoc := st.emittedJoinDoc ++ [docId]
      joinLink := ""
      joinError := ""
      joinSuccess := "Successfully joined: " ++ body.title }
  else if status = 404 then
    { st with joinError := "Document not found. Check if the link is correct.",
              joinSuccess := "" }
  else if status = 401 then
    { st with joinError := "You do not have access to this document.",
              joinSuccess := "" }
  else
    { st with joinError := "Failed to join document. Please try again.",
              joinSuccess := "" }

/-- Completion of the handleCreateDoc POST (App.jsx lines 145-154): the
status is never inspected; the parsed body is appended to the documents
list. -/
def handleCreateDocResponse (status : Nat) (body : Document)
    (st : RestState) : RestState :=
  { st with documents := st.documents ++ [body] }

/-- Completion of the persistence PUT issued by handleEditorChange (App.jsx
lines 239-246): the response is never read, so the state is unchanged for
every status. -/
def handleEditorPutResponse (status : Nat) (st : RestState) : RestState :=
  st

/-- Outcome of the DELETE fetch in handleDeleteDoc: an HTTP completion with
some status, or a network failure (the rejection the catch logs). -/
inductive DeleteOutcome where
  | completed (status : Nat)
  | networkFailure
  deriving DecidableEq, Repr

/-- handleDeleteDoc (App.jsx lines 159-170): the DELETE fetch is awaited
inside try/catch whose catch only logs, and the removal from the local list
plus the deselection run after it unconditionally, so the outcome is never
consulted. -/
def handleDeleteDoc (docId : String) (outcome : DeleteOutcome)
    (st : RestState) : RestState :=
  let st1 := { st with documents := st.documents.filter (fun d => d._id ≠ docId) }
  match st1.selectedDoc with
  | some d => if d._id = docId then { st1 with selectedDoc := none } else st1
  | none => st1

/-- The document with id A used in concrete traces. -/
def docA : Document := ⟨"A", "Doc A", "contentA"⟩

/-- The document with id B used in concrete traces. -/
def docB : Document := ⟨"B", "Doc B", "contentB"⟩

/-- A logged-in state holding documents A and B, nothing selected. -/
def rest0 : RestState :=
  ⟨"tok", some "alice", [docA, docB], none, none, "", "", "", []⟩

/-- The trace refuting C6: select A (its content fetch starts), select B (a
second fetch starts), the fetch for B completes, then the superseded fetch
for A completes last. -/
def c6Trace : RestState :=
  handleSelectDocFulfilled 200 (some "contentA")
    (handleSelectDocFulfilled 200 (some "contentB")
      (handleSelectDocStart docB
        (handleSelectDocStart docA rest0)))

/-- Whitespace as removed by JS String.prototype.trim (the ASCII part of the
WhiteSpace plus LineTerminator sets). -/
def isJsSpace (c : Char) : Bool :=
  c = ' ' || c = '\t' || c = '\n' || c = '\r' || c = '\x0b' || c = '\x0c'

/-- JS String.prototype.trim on a character list: drop whitespace from both
ends. -/
def trimChars (s : List Char) : List Char :=
  ((s.dropWhile isJsSpace).reverse.dropWhile isJsSpace).reverse

/-- Test whether sep occurs at the very start of s (the anchored comparison a
leftmost-match scan performs at each position). -/
def leadsWith : List Char → List Char → Bool
  | [], _ => true
  | _ :: _, [] => false
  | a :: sep, b :: s => a == b && leadsWith sep s

/-- Test whether sep occurs anywhere in s, the semantics of JS
String.prototype.includes. -/
def occursIn (sep : List Char) : List Char → Bool
  | [] => leadsWith sep []
  | c :: t => leadsWith sep (c :: t) || occursIn sep t

/-- Leftmost-match scan, the step JS String.prototype.split performs: find
the first occurrence of sep and return the part before it and the remainder
after it, or none when sep does not occur. -/
def splitFirst (sep : List Char) : List Char → Option (List Char × List Char)
  | [] => if leadsWith sep [] then some ([], []) else none
  | c :: t =>
    if leadsWith sep (c :: t) then some ([], (c :: t).drop sep.length)
    else
      match splitFirst sep t with
      | none => none
      | some (b, r) => some (c :: b, r)

/-- The characters of the marker "?doc=". -/
def qdocChars : List Char := ['?', 'd', 'o', 'c', '=']

/-- The characters of the marker "/documents/". -/
def documentsSegChars : List Char := ['/', 'd', 'o', 'c', 'u', 'm', 'e', 'n', 't', 's', '/']

/-- The join-link parsing of handleJoinDocument (App.jsx lines 183-192): if
the link includes "?doc=" then docId = link.split("?doc=")[1], else if it
includes "/documents/" then docId = link.split("/documents/")[1], else
docId = link.trim(). Element [1] of a JS split is the segment between the
first occurrence of the separator and the next occurrence (or the end), that
is, the before-part of a second leftmost scan applied to the remainder. -/
def extractDocId (joinLink : List Char) : List Char :=
  match splitFirst qdocChars joinLink with
  | some (_, r) =>
    match splitFirst qdocChars r with
    | some (b, _) => b
    | none => r
  | none =>
    match splitFirst documentsSegChars joinLink with
    | some (_, r) =>
      match splitFirst documentsSegChars r with
      | some (b, _) => b
      | none => r
    | none => trimChars joinLink

/-- Claim-side reading of C9: an input containing the marker resolves to the
entire substring after the first occurrence of the marker. -/
def substringAfterFirst (sep s : List Char) : Option (List Char) :=
  (splitFirst sep s).map Prod.snd

lemma handleEditorChange_of_not_remote (value d : String) (st : EditorState)
    (hd : st.selectedDoc = some d) (hr : st.isRemote = false) :
    handleEditorChange value st =
      { st with
        content := value
        isRemote := false
        emitted := st.emitted ++ [SocketEvent.editDocument d value]
        putRequests := st.putRequests ++ [(d, value)] } := by
  simp [handleEditorChange, hd, hr]

lemma handleEditorChange_of_remote (value d : String) (st : EditorState)
    (hd : st.selectedDoc = some d) (hr : st.isRemote = true) :
    handleEditorChange value st =
      { st with content := value, isRemote := false } := by
  simp [handleEditorChange, hd, hr]

lemma runLocalEdits_spec (edits : List String) (st : EditorState) (d : String)
    (hd : st.selectedDoc = some d) (hr : st.isRemote = false) :
    (runLocalEdits edits st).emitted =
        st.emitted ++ edits.map (fun v => SocketEvent.editDocument d v) ∧
      (runLocalEdits edits st).selectedDoc = some d ∧
      (runLocalEdits edits st).isRemote = false := by
  induction edits generalizing st with
  | nil => simp [runLocalEdits, hd, hr]
  | cons e rest ih =>
    have hstep := handleEditorChange_of_not_remote e d st hd hr
    have h1 : runLocalEdits (e :: rest) st =
        runLocalEdits rest (handleEditorChange e st) := by
      simp [runLocalEdits, List.foldl_cons]
    rw [h1, hstep]
    have ih2 := ih
      ({ st with
          content := e
          isRemote := false
          emitted := st.emitted ++ [SocketEvent.editDocument d e]
          putRequests := st.putRequests ++ [(d, e)] }) hd rfl
    simpa using ih2

/-- C1: for every remote update applied via the "document-updated" handler, the
suppression flag is set before the buffer is replaced (after the first
statement the flag is true and the buffer still holds its old value; the
second statement then installs the remote content); exactly one subsequent
invocation of handleEditorChange is suppressed: it emits no "edit-document"
event and clears the flag, and every later local-edit invocation with no
intervening remote update does broadcast. -/
theorem remote_update_suppresses_exactly_one_edit (st : EditorState)
    (d c v : String) (edits : List String) (hd : st.selectedDoc = some d) :
    (setIsRemoteTrue st).isRemote = true ∧
      (setIsRemoteTrue st).content = st.content ∧
      (documentUpdated c st).content = c ∧
      (documentUpdated c st).isRemote = true ∧
      (handleEditorChange v (documentUpdated c st)).emitted = st.emitted ∧
      (handleEditorChange v (documentUpdated c st)).isRemote = false ∧
      (runLocalEdits edits (handleEditorChange v (documentUpdated c st))).emitted =
        st.emitted ++ edits.map (fun w => SocketEvent.editDocument d w) := by
  have hupd : (documentUpdated c st).selectedDoc = some d := by
    simp [documentUpdated, setContentTo, setIsRemoteTrue, hd]
  have hrem : (documentUpdated c st).isRemote = true := by
    simp [documentUpdated, setContentTo, setIsRemoteTrue]
  have hsup := handleEditorChange_of_remote v d (documentUpdated c st) hupd hrem
  have hafter : (handleEditorChange v (documentUpdated c st)).selectedDoc = some d := by
    rw [hsup]; simpa [documentUpdated, setContentTo, setIsRemoteTrue] using hd
  have hafter2 : (handleEditorChange v (documentUpdated c st)).isRemote = false := by
    rw [hsup]
  have hrun := runLocalEdits_spec edits (handleEditorChange v (documentUpdated c st)) d
    hafter hafter2
  refine ⟨rfl, rfl, rfl, rfl, ?_, hafter2, ?_⟩
  · rw [hsup]; simp [documentUpdated, setContentTo, setIsRemoteTrue]
  · rw [hrun.1, hsup]; simp [documentUpdated, setContentTo, setIsRemoteTrue]

/-- Concrete instantiation of remote_update_suppresses_exactly_one_edit. -/
theorem remote_update_suppresses_exactly_one_edit_witness :
    (handleEditorChange "hello world"
        (documentUpdated "hello world"
          ⟨some "doc1", "hello", false, [], []⟩)).emitted = [] ∧
      (runLocalEdits ["hello world!"]
        (handleEditorChange "hello world"
          (documentUpdated "hello world"
            ⟨some "doc1", "hello", false, [], []⟩))).emitted =
        [SocketEvent.editDocument "doc1" "hello world!"] := by
  have h := remote_update_suppresses_exactly_one_edit
    ⟨some "doc1", "hello", false, [], []⟩ "doc1" "hello world" "hello world"
    ["hello world!"] rfl
  exact ⟨h.2.2.2.2.1, by simpa using h.2.2.2.2.2.2⟩

/-- C2: for every sequence of local-edit handler invocations with a document
selected and the suppression flag false throughout (no interleaved remote
updates), each invocation emits exactly one "edit-document" event carrying the
document id and that edit, in order: no edit is dropped and none is emitted
twice. -/
theorem local_edits_broadcast_exactly_once (edits : List String)
    (st : EditorState) (d : String) (hd : st.selectedDoc = some d)
    (hr : st.isRemote = false) :
    (runLocalEdits edits st).emitted =
      st.emitted ++ edits.map (fun v => SocketEvent.editDocument d v) :=
  (runLocalEdits_spec edits st d hd hr).1

/-- Concrete instantiation of local_edits_broadcast_exactly_once. -/
theorem local_edits_broadcast_exactly_once_witness :
    (runLocalEdits ["a", "ab", "abc"]
        ⟨some "doc1", "", false, [], []⟩).emitted =
      [SocketEvent.editDocument "doc1" "a",
        SocketEvent.editDocument "doc1" "ab",
        SocketEvent.editDocument "doc1" "abc"] := by
  have h := local_edits_broadcast_exactly_once ["a", "ab", "abc"]
    ⟨some "doc1", "", false, [], []⟩ "doc1" rfl rfl
  simpa using h

lemma lookupPeers_upsert (m : List (String × CallHandle)) (k : String)
    (v : CallHandle) : lookupPeers (upsert m k v) k = some v := by
  induction m with
  | nil => simp [upsert, lookupPeers]
  | cons p rest ih =>
    by_cases hp : p.1 = k
    · simp [upsert, lookupPeers, hp]
    · simp [upsert, lookupPeers, hp, ih]

lemma mem_keys_upsert (m : List (String × CallHandle)) (k a : String)
    (v : CallHandle) (h : a ∈ (upsert m k v).map Prod.fst) :
    a = k ∨ a ∈ m.map Prod.fst := by
  induction m with
  | nil => simpa [upsert] using h
  | cons p rest ih =>
    by_cases hp : p.1 = k
    · rw [show upsert (p :: rest) k v = (k, v) :: rest from by
        simp [upsert, hp], List.map_cons] at h
      rcases List.mem_cons.mp h with h | h
      · exact Or.inl h
      · exact Or.inr (by rw [List.map_cons]; exact List.mem_cons_of_mem _ h)
    · rw [show upsert (p :: rest) k v = p :: upsert rest k v from by
        simp [upsert, hp], List.map_cons] at h
      rcases List.mem_cons.mp h with h | h
      · exact Or.inr (by rw [List.map_cons]; exact h ▸ List.mem_cons_self _ _)
      · rcases ih h with h2 | h2
        · exact Or.inl h2
        · exact Or.inr (by rw [List.map_cons]; exact List.mem_cons_of_mem _ h2)

lemma keysNodup_upsert (m : List (String × CallHandle)) (k : String)
    (v : CallHandle) (h : keysNodup m) : keysNodup (upsert m k v) := by
  induction m with
  | nil => simp [upsert, keysNodup]
  | cons p rest ih =>
    unfold keysNodup at h
    rw [List.map_cons, List.nodup_cons] at h
    by_cases hp : p.1 = k
    · unfold keysNodup
      simp only [upsert, hp, if_pos]
      rw [List.map_cons, List.nodup_cons]
      exact ⟨by rw [← hp]; exact h.1, h.2⟩
    · unfold keysNodup
      simp only [upsert, hp, if_neg, not_false_iff]
      rw [List.map_cons, List.nodup_cons]
      refine ⟨?_, ih h.2⟩
      intro hmem
      rcases mem_keys_upsert rest k p.1 v hmem with h2 | h2
      · exact hp h2
      · exact h.1 h2

/-- C3 counterexample: with a PeerLink already registered for p1 (and one
outbound call to p1 already placed), a duplicate "user-joined-video"
notification for p1 is not ignored: the handler performs a second outbound
connection attempt (peer.call), so the claimed idempotent guard does not
exist in the code. -/
theorem duplicate_peer_joined_second_call_attempt :
    lookupPeers c3State.peers "p1" = some ⟨5, "p1"⟩ ∧
      (userJoinedVideo "self" "p1" 9 c3State c3Log).2.outboundCalls = ["p1", "p1"] ∧
      (userJoinedVideo "self" "p1" 9 c3State c3Log).2.outboundCalls ≠
        c3Log.outboundCalls := by
  decide

/-- C3 amended: the "user-joined-video" handler guards only against an empty
peerId and the own peer id; for any other peerId, a PeerLink already
registered or not, it places an outbound call and stores the new call under
that key (replacing any previous entry). Because the peers map is an object
keyed by peer identity, its keys stay pairwise distinct under both the
notification handler and the inbound-call handler, so at most one PeerLink
is registered per peer identity at any time. -/
theorem peer_joined_guard_and_key_uniqueness (selfId peerId : String)
    (freshCallId : Nat) (v : VideoState) (l : VideoLog) :
    ((peerId = "" ∨ peerId = selfId) →
        userJoinedVideo selfId peerId freshCallId v l = (v, l)) ∧
      (peerId ≠ "" → peerId ≠ selfId →
        (userJoinedVideo selfId peerId freshCallId v l).2.outboundCalls =
            l.outboundCalls ++ [peerId] ∧
          lookupPeers (userJoinedVideo selfId peerId freshCallId v l).1.peers peerId =
            some ⟨freshCallId, peerId⟩) ∧
      (keysNodup v.peers →
        keysNodup (userJoinedVideo selfId peerId freshCallId v l).1.peers) ∧
      (keysNodup v.peers → keysNodup (peerIncomingCall peerId freshCallId v).peers) := by
  refine ⟨?_, ?_, ?_, ?_⟩
  · intro h; simp [userJoinedVideo, h]
  · intro h1 h2
    simp [userJoinedVideo, h1, h2, lookupPeers_upsert]
  · intro h
    by_cases hg : peerId = "" ∨ peerId = selfId
    · simpa [userJoinedVideo, hg] using h
    · have h1 : ¬peerId = "" := fun hh => hg (Or.inl hh)
      have h2 : ¬peerId = selfId := fun hh => hg (Or.inr hh)
      simpa [userJoinedVideo, h1, h2] using keysNodup_upsert v.peers peerId _ h
  · intro h
    simpa [peerIncomingCall] using keysNodup_upsert v.peers peerId _ h

/-- Concrete instantiation of peer_joined_guard_and_key_uniqueness. -/
theorem peer_joined_guard_and_key_uniqueness_witness :
    (userJoinedVideo "self" "p2" 9 c3State c3Log).2.outboundCalls = ["p1", "p2"] ∧
      keysNodup (userJoinedVideo "self" "p2" 9 c3State c3Log).1.peers := by
  have h := peer_joined_guard_and_key_uniqueness "self" "p2" 9 c3State c3Log
  exact ⟨by rw [(h.2.1 (by decide) (by decide)).1]; decide,
    h.2.2.1 (by decide)⟩

/-- C4 counterexample: starting a call from a fresh state with a document
selected sets inCall to true already at the getUserMedia suspension point,
while no local stream has been acquired; in the run in which the platform
then denies capture, acquisition never succeeds and inCall is reset to
false, so inCall was true without any successful media acquisition. -/
theorem in_call_set_before_media_success :
    (handleJoinVideoCallStart true ⟨false, none, none, [], []⟩).1.inCall = true ∧
      (handleJoinVideoCallStart true ⟨false, none, none, [], []⟩).1.myStream = none ∧
      (handleJoinVideoCallResume MediaOutcome.denied 7
          (handleJoinVideoCallStart true ⟨false, none, none, [], []⟩).1).inCall = false := by
  decide

/-- C4 amended: handleJoinVideoCall sets inCall to true at its start, before
media acquisition, and this eager flag is the reentrancy guard: a second
invocation while inCall is true (or without a selected document) issues no
media request and changes nothing, so at most one call session exists per
client; on acquisition failure inCall is reset to false, and on success it
stays true with the stream recorded. -/
theorem join_video_call_eager_flag_single_session (hasDoc : Bool)
    (v : VideoState) (pi si : Nat) :
    (v.inCall = true → handleJoinVideoCallStart hasDoc v = (v, false)) ∧
      (hasDoc = false → handleJoinVideoCallStart hasDoc v = (v, false)) ∧
      (v.inCall = false → hasDoc = true →
        (handleJoinVideoCallStart hasDoc v).1.inCall = true ∧
          (handleJoinVideoCallStart hasDoc v).1.myStream = v.myStream ∧
          (handleJoinVideoCallStart hasDoc v).2 = true ∧
          (handleJoinVideoCallResume MediaOutcome.denied pi
              (handleJoinVideoCallStart hasDoc v).1).inCall = false ∧
          (handleJoinVideoCallResume (MediaOutcome.granted si) pi
              (handleJoinVideoCallStart hasDoc v).1).inCall = true ∧
          (handleJoinVideoCallResume (MediaOutcome.granted si) pi
              (handleJoinVideoCallStart hasDoc v).1).myStream = some si) := by
  refine ⟨?_, ?_, ?_⟩
  · intro h; simp [handleJoinVideoCallStart, h]
  · intro h; simp [handleJoinVideoCallStart, h]
  · intro h1 h2
    simp [handleJoinVideoCallStart, handleJoinVideoCallResume, h1, h2]

/-- Concrete instantiation of join_video_call_eager_flag_single_session. -/
theorem join_video_call_eager_flag_single_session_witness :
    handleJoinVideoCallStart true c3State = (c3State, false) ∧
      (handleJoinVideoCallStart true ⟨false, none, none, [], []⟩).1.inCall = true := by
  have h1 := join_video_call_eager_flag_single_session true c3State 7 3
  have h2 := join_video_call_eager_flag_single_session true
    ⟨false, none, none, [], []⟩ 7 3
  exact ⟨h1.1 (by decide), (h2.2.2 rfl rfl).1⟩

/-- C5, evaluated at the failing trace: select document A, join the call
(Peer instance 7, stream 3), peer q joins (call 11), then select document B.
At the moment "join-document" for B is emitted the call was active with live
resources, yet nothing has been destroyed, stopped or closed: the cleanup
closure captured myPeer = null, myStream = null, peers = {} from the render
at which A was selected (effect dependency list [selectedDoc] only). The
resources are released only one document switch later, as the final three
conjuncts show. -/
theorem join_document_emitted_without_call_teardown :
    c5AfterCall.video.inCall = true ∧
      c5AfterCall.video.myPeer = some 7 ∧
      c5AfterCall.video.myStream = some 3 ∧
      c5AfterCall.video.peers = [("q", ⟨11, "q"⟩)] ∧
      c5Trace.log.emittedJoinDoc = ["A", "B"] ∧
      c5Trace.log.destroyedPeers = [] ∧
      c5Trace.log.stoppedStreams = [] ∧
      c5Trace.log.closedCalls = [] ∧
      (selectDocCommit "C" c5Trace).log.destroyedPeers = [7] ∧
      (selectDocCommit "C" c5Trace).log.stoppedStreams = [3] ∧
      (selectDocCommit "C" c5Trace).log.closedCalls = [11] := by
  decide

/-- C8 counterexample: in a call where only the self preview is registered
(videoRefs holds the synthetic key "me", the peers map is empty), a
"user-left-video" notification naming "me" finds no PeerLink, yet it is not
a no-op: the video reference under "me" is removed. -/
theorem user_left_absent_peer_removes_self_ref :
    lookupPeers c8State.peers "me" = none ∧
      userLeftVideo "me" c8State log0 =
        Except.ok ({ c8State with videoRefs := [] }, log0) ∧
      ({ c8State with videoRefs := ([] : List String) }).videoRefs ≠
        c8State.videoRefs := by
  decide

/-- C8 amended: the "user-left-video" handler never raises an exception (the
guard if (!prev[peerId]) return prev protects the only property access on a
possibly-undefined value). When no PeerLink exists for P the peers map and
the closed-calls log are unchanged, and the video references are also
unchanged unless a video element is registered under P (possible only for
the synthetic self key), in which case that element alone is removed. When a
PeerLink for P exists it is closed and removed, along with the video
element under P. -/
theorem user_left_video_guarded_cases (peerId : String) (v : VideoState)
    (l : VideoLog) :
    (∃ out, userLeftVideo peerId v l = Except.ok out) ∧
      (lookupPeers v.peers peerId = none → v.videoRefs.contains peerId = false →
        userLeftVideo peerId v l = Except.ok (v, l)) ∧
      (lookupPeers v.peers peerId = none →
        userLeftVideo peerId v l =
          Except.ok ({ v with videoRefs := removeRef peerId v.videoRefs }, l)) ∧
      (∀ call, lookupPeers v.peers peerId = some call →
        userLeftVideo peerId v l =
          Except.ok
            ({ v with
                videoRefs := removeRef peerId v.videoRefs
                peers := v.peers.filter (fun p => p.1 ≠ peerId) },
              { l with closedCalls := l.closedCalls ++ [call.callId] })) := by
  cases hlp : lookupPeers v.peers peerId with
  | none =>
    refine ⟨⟨({ v with videoRefs := removeRef peerId v.videoRefs }, l), ?_⟩, ?_, ?_, ?_⟩
    · simp [userLeftVideo, setPeersOnUserLeft, hlp]
    · intro _ hc
      have hmem : peerId ∉ v.videoRefs := by simpa using hc
      simp [userLeftVideo, setPeersOnUserLeft, hlp, removeRef, hmem]
    · intro _
      simp [userLeftVideo, setPeersOnUserLeft, hlp]
    · intro call hc
      exact absurd hc (by simp)
  | some call =>
    refine ⟨⟨({ v with
        videoRefs := removeRef peerId v.videoRefs
        peers := v.peers.filter (fun p => p.1 ≠ peerId) },
      { l with closedCalls := l.closedCalls ++ [call.callId] }), ?_⟩, ?_, ?_, ?_⟩
    · simp [userLeftVideo, setPeersOnUserLeft, hlp, jsAccess]
    · intro hc
      exact absurd hc (by simp)
    · intro hc
      exact absurd hc (by simp)
    · intro call2 hc
      injection hc with hc2
      subst hc2
      simp [userLeftVideo, setPeersOnUserLeft, hlp, jsAccess]

/-- Concrete instantiation of user_left_video_guarded_cases: the fully-absent
peer px is a complete no-op, and the registered peer p1 is closed (call id 5)
and removed. -/
theorem user_left_video_guarded_cases_witness :
    userLeftVideo "px" (⟨false, none, none, [], []⟩ : VideoState) log0 =
        Except.ok (⟨false, none, none, [], []⟩, log0) ∧
      userLeftVideo "p1" c3State c3Log =
        Except.ok (⟨true, some 7, some 3, [], ["me"]⟩, ⟨["p1"], [], [], [5], []⟩) := by
  have h1 := user_left_video_guarded_cases "px"
    (⟨false, none, none, [], []⟩ : VideoState) log0
  have h2 := user_left_video_guarded_cases "p1" c3State c3Log
  refine ⟨h1.2.1 (by decide) (by decide), ?_⟩
  rw [h2.2.2.2 ⟨5, "p1"⟩ (by decide)]
  decide

lemma handleDeleteDoc_token_user (docId : String) (o : DeleteOutcome)
    (st : RestState) :
    (handleDeleteDoc docId o st).token = st.token ∧
      (handleDeleteDoc docId o st).user = st.user := by
  cases hs : st.selectedDoc with
  | none => simp [handleDeleteDoc, hs]
  | some d => by_cases hd : d._id = docId <;> simp [handleDeleteDoc, hs, hd]

/-- C6 counterexample: after selecting document A (content fetch in flight)
and then document B, the superseded fetch for A completes last and its
result is applied: the visible buffer holds the content of A while B is the
selected document, so the stale result did mutate the visible buffer. -/
theorem stale_select_fetch_overwrites_buffer :
    c6Trace.selectedDoc = some docB ∧
      c6Trace.content = some "contentA" ∧
      docB.content = "contentB" ∧
      ("contentA" : String) ≠ "contentB" := by
  decide

/-- C6 amended: the fulfilled continuation of the handleSelectDoc content
fetch applies the fetched content to the visible buffer unconditionally for
every status and every current selection; no session identity is checked, so
the completion that runs last wins even when its selection was
superseded. -/
theorem select_fetch_applied_unconditionally (status : Nat)
    (bodyContent : Option String) (st : RestState) :
    (handleSelectDocFulfilled status bodyContent st).content = bodyContent ∧
      (handleSelectDocFulfilled status bodyContent st).selectedDoc = st.selectedDoc ∧
      (handleSelectDocFulfilled status bodyContent st).token = st.token :=
  ⟨rfl, rfl, rfl⟩

/-- C7 counterexample: the fetch-by-id continuation of handleSelectDoc on a
401 response leaves the stored token and user intact, so this document
endpoint does not trigger a local logout. -/
theorem select_doc_401_no_logout :
    (handleSelectDocFulfilled 401 none rest0).token = "tok" ∧
      (handleSelectDocFulfilled 401 none rest0).user = some "alice" ∧
      rest0.token ≠ "" := by
  decide

/-- C7 amended: of the five document endpoints only the list fetch performs a
local logout on 401 (clearing token and user); fetch-by-id leaves them
intact, join-by-link surfaces an access message without logging out, and
create, update and delete ignore the status entirely. -/
theorem only_document_list_401_logs_out (st : RestState)
    (docs : List Document) (body : Option String) (doc : Document)
    (docId : String) :
    (fetchDocumentsCompleted 401 docs st).token = "" ∧
      (fetchDocumentsCompleted 401 docs st).user = none ∧
      (fetchDocumentsCompleted 401 docs st).documents = [] ∧
      (handleSelectDocFulfilled 401 body st).token = st.token ∧
      (handleSelectDocFulfilled 401 body st).user = st.user ∧
      (handleJoinDocumentResponse docId 401 doc st).token = st.token ∧
      (handleJoinDocumentResponse docId 401 doc st).user = st.user ∧
      (handleJoinDocumentResponse docId 401 doc st).joinError =
        "You do not have access to this document." ∧
      (handleCreateDocResponse 401 doc st).token = st.token ∧
      (handleCreateDocResponse 401 doc st).user = st.user ∧
      handleEditorPutResponse 401 st = st ∧
      (handleDeleteDoc docId (DeleteOutcome.completed 401) st).token = st.token ∧
      (handleDeleteDoc docId (DeleteOutcome.completed 401) st).user = st.user := by
  refine ⟨?_, ?_, ?_, rfl, rfl, ?_, ?_, ?_, rfl, rfl, rfl, ?_, ?_⟩
  · simp [fetchDocumentsCompleted, handleLogout]
  · simp [fetchDocumentsCompleted, handleLogout]
  · simp [fetchDocumentsCompleted, handleLogout]
  · simp [handleJoinDocumentResponse]
  · simp [handleJoinDocumentResponse]
  · simp [handleJoinDocumentResponse]
  · exact (handleDeleteDoc_token_user docId (DeleteOutcome.completed 401) st).1
  · exact (handleDeleteDoc_token_user docId (DeleteOutcome.completed 401) st).2

/-- C10: for every invocation of handleDeleteDoc the document is removed
from the local documents list, the selection is cleared when it pointed at
the deleted document, and the result is identical for every outcome of the
DELETE request (success, HTTP error or network failure): the local removal
is never rolled back. -/
theorem delete_doc_removes_locally_regardless_of_outcome (docId : String)
    (o o2 : DeleteOutcome) (st : RestState) :
    (handleDeleteDoc docId o st).documents =
        st.documents.filter (fun d => d._id ≠ docId) ∧
      (handleDeleteDoc docId o st).selectedDoc =
        (if st.selectedDoc.any (fun d => d._id = docId) then none
          else st.selectedDoc) ∧
      handleDeleteDoc docId o st = handleDeleteDoc docId o2 st := by
  refine ⟨?_, ?_, rfl⟩
  · cases hs : st.selectedDoc with
    | none => simp [handleDeleteDoc, hs]
    | some d => by_cases hd : d._id = docId <;> simp [handleDeleteDoc, hs, hd]
  · cases hs : st.selectedDoc with
    | none => simp [handleDeleteDoc, hs]
    | some d => by_cases hd : d._id = docId <;> simp [handleDeleteDoc, hs, hd]

lemma leadsWith_append (sep x y : List Char) (h : leadsWith sep x = true) :
    leadsWith sep (x ++ y) = true := by
  induction sep generalizing x with
  | nil => simp [leadsWith]
  | cons a sep' ih =>
    cases x with
    | nil => simp [leadsWith] at h
    | cons b t =>
      simp only [leadsWith, Bool.and_eq_true, beq_iff_eq] at h
      simp only [List.cons_append, leadsWith, Bool.and_eq_true, beq_iff_eq]
      exact ⟨h.1, ih t h.2⟩

lemma leadsWith_self_append (x y : List Char) : leadsWith x (x ++ y) = true := by
  induction x with
  | nil => simp [leadsWith]
  | cons a t ih => simp [leadsWith, ih]

lemma leadsWith_drop (sep s : List Char) (h : leadsWith sep s = true) :
    s = sep ++ s.drop sep.length := by
  induction sep generalizing s with
  | nil => simp
  | cons a sep' ih =>
    cases s with
    | nil => simp [leadsWith] at h
    | cons b t =>
      simp only [leadsWith, Bool.and_eq_true, beq_iff_eq] at h
      have := ih t h.2
      simp only [List.length_cons, List.drop_succ_cons, List.cons_append]
      rw [h.1, ← this]

lemma leadsWith_nil_of_ne (sep : List Char) (hsep : sep ≠ []) :
    leadsWith sep [] = false := by
  cases sep with
  | nil => exact absurd rfl hsep
  | cons a t => simp [leadsWith]

lemma occursIn_nil_of_ne (sep : List Char) (hsep : sep ≠ []) :
    occursIn sep [] = false := by
  simp [occursIn, leadsWith_nil_of_ne sep hsep]

lemma splitFirst_none_iff (sep : List Char) (s : List Char) :
    splitFirst sep s = none ↔ occursIn sep s = false := by
  induction s with
  | nil =>
    cases h : leadsWith sep [] <;> simp [splitFirst, occursIn, h]
  | cons c t ih =>
    cases h : leadsWith sep (c :: t) with
    | true => simp [splitFirst, occursIn, h]
    | false =>
      simp only [splitFirst, occursIn, h, Bool.false_or, if_neg Bool.false_ne_true]
      rw [← ih]
      cases hsp : splitFirst sep t with
      | none => simp
      | some p => simp

lemma splitFirst_some_spec (sep : List Char) (hsep : sep ≠ []) :
    ∀ s b r, splitFirst sep s = some (b, r) →
      s = b ++ sep ++ r ∧ occursIn sep b = false := by
  intro s
  induction s with
  | nil =>
    intro b r h
    rw [splitFirst, if_neg (by simp [leadsWith_nil_of_ne sep hsep])] at h
    exact absurd h (by simp)
  | cons c t ih =>
    intro b r h
    cases hl : leadsWith sep (c :: t) with
    | true =>
      rw [splitFirst, if_pos (by simp [hl])] at h
      injection h with h2
      injection h2 with hb hr
      subst hb
      subst hr
      refine ⟨by simpa using leadsWith_drop sep (c :: t) hl,
        occursIn_nil_of_ne sep hsep⟩
    | false =>
      rw [splitFirst, if_neg (by simp [hl])] at h
      cases hsp : splitFirst sep t with
      | none => rw [hsp] at h; exact absurd h (by simp)
      | some p =>
        cases p with
        | mk b2 r2 =>
          rw [hsp] at h
          injection h with h2
          injection h2 with hb hr
          subst hb
          subst hr
          obtain ⟨heq, hocc⟩ := ih b2 r2 hsp
          constructor
          · simp [heq]
          · rw [show occursIn sep (c :: b2) =
                (leadsWith sep (c :: b2) || occursIn sep b2) from rfl, hocc,
              Bool.or_false]
            cases hlw : leadsWith sep (c :: b2) with
            | false => rfl
            | true =>
              exfalso
              have hext := leadsWith_append sep (c :: b2) (sep ++ r2) hlw
              have hfull : (c :: b2) ++ (sep ++ r2) = c :: t := by
                rw [heq]; simp
              rw [hfull, hl] at hext
              exact Bool.false_ne_true hext

/-- C9 counterexample: on the input x?doc=a?doc=b, in which the marker ?doc=
occurs twice, the claimed resolution (the substring after the marker, namely
a?doc=b) differs from what the code computes: split("?doc=")[1] is the
segment between the first and second occurrence, namely a. -/
theorem join_link_two_markers_middle_segment :
    substringAfterFirst qdocChars ("x?doc=a?doc=b".toList) =
        some ("a?doc=b".toList) ∧
      extractDocId ("x?doc=a?doc=b".toList) = "a".toList ∧
      ("a".toList : List Char) ≠ "a?doc=b".toList := by
  decide

/-- C9 amended: the join-link resolver is a pure string function; an input
containing "?doc=" resolves to the marker-free segment that immediately
follows an occurrence of "?doc=" and extends to the next occurrence of the
marker or to the end of the input (for a single occurrence this is exactly
the substring after it); an input without "?doc=" but containing
"/documents/" resolves to the corresponding segment for that marker; any
other input resolves to the trimmed input itself; in particular both
scenario links resolve to abc123. -/
theorem extract_doc_id_resolution :
    extractDocId ("https://host/?doc=abc123".toList) = "abc123".toList ∧
      extractDocId ("https://host/documents/abc123".toList) = "abc123".toList ∧
      (∀ s, occursIn qdocChars s = false → occursIn documentsSegChars s = false →
        extractDocId s = trimChars s) ∧
      (∀ s, occursIn qdocChars s = true →
        ∃ a rest, s = a ++ qdocChars ++ extractDocId s ++ rest ∧
          occursIn qdocChars (extractDocId s) = false ∧
          (rest = [] ∨ leadsWith qdocChars rest = true)) ∧
      (∀ s, occursIn qdocChars s = false → occursIn documentsSegChars s = true →
        ∃ a rest, s = a ++ documentsSegChars ++ extractDocId s ++ rest ∧
          occursIn documentsSegChars (extractDocId s) = false ∧
          (rest = [] ∨ leadsWith documentsSegChars rest = true)) := by
  refine ⟨by decide, by decide, ?_, ?_, ?_⟩
  · intro s h1 h2
    simp [extractDocId, (splitFirst_none_iff qdocChars s).mpr h1,
      (splitFirst_none_iff documentsSegChars s).mpr h2]
  · intro s h1
    cases hsp1 : splitFirst qdocChars s with
    | none =>
      rw [(splitFirst_none_iff qdocChars s).mp hsp1] at h1
      exact absurd h1 (by simp)
    | some p =>
      cases p with
      | mk a r =>
        obtain ⟨heq, _⟩ := splitFirst_some_spec qdocChars (by decide) s a r hsp1
        cases hsp2 : splitFirst qdocChars r with
        | none =>
          have hex : extractDocId s = r := by
            simp [extractDocId, hsp1, hsp2]
          refine ⟨a, [], ?_, ?_, Or.inl rfl⟩
          · rw [hex, List.append_nil]; exact heq
          · rw [hex]; exact (splitFirst_none_iff qdocChars r).mp hsp2
        | some p2 =>
          cases p2 with
          | mk b r2 =>
            obtain ⟨heq2, hocc2⟩ :=
              splitFirst_some_spec qdocChars (by decide) r b r2 hsp2
            have hex : extractDocId s = b := by
              simp [extractDocId, hsp1, hsp2]
            refine ⟨a, qdocChars ++ r2, ?_, ?_,
              Or.inr (leadsWith_self_append qdocChars r2)⟩
            · rw [hex, heq, heq2]; simp
            · rw [hex]; exact hocc2
  · intro s h1 h2
    have hn1 : splitFirst qdocChars s = none :=
      (splitFirst_none_iff qdocChars s).mpr h1
    cases hsp1 : splitFirst documentsSegChars s with
    | none =>
      rw [(splitFirst_none_iff documentsSegChars s).mp hsp1] at h2
      exact absurd h2 (by simp)
    | some p =>
      cases p with
      | mk a r =>
        obtain ⟨heq, _⟩ :=
          splitFirst_some_spec documentsSegChars (by decide) s a r hsp1
        cases hsp2 : splitFirst documentsSegChars r with
        | none =>
          have hex : extractDocId s = r := by
            simp [extractDocId, hn1, hsp1, hsp2]
          refine ⟨a, [], ?_, ?_, Or.inl rfl⟩
          · rw [hex, List.append_nil]; exact heq
          · rw [hex]; exact (splitFirst_none_iff documentsSegChars r).mp hsp2
        | some p2 =>
          cases p2 with
          | mk b r2 =>
            obtain ⟨heq2, hocc2⟩ :=
              splitFirst_some_spec documentsSegChars (by decide) r b r2 hsp2
            have hex : extractDocId s = b := by
              simp [extractDocId, hn1, hsp1, hsp2]
            refine ⟨a, documentsSegChars ++ r2, ?_, ?_,
              Or.inr (leadsWith_self_append documentsSegChars r2)⟩
            · rw [hex, heq, heq2]; simp
            · rw [hex]; exact hocc2

/-- Concrete instantiation of extract_doc_id_resolution: a raw identifier
with surrounding whitespace resolves to its trimmed self. -/
theorem extract_doc_id_resolution_witness :
    extractDocId ("  abc123  ".toList) = "abc123".toList := by
  have h := extract_doc_id_resolution.2.2.1 ("  abc123  ".toList)
    (by decide) (by decide)
  rw [h]
  decide

end OnlineEditor
